import Mathlib

/-!
# GeoData-Standardizer: verification of the spec against the source

A shallow embedding of the core of the GeoData-Standardizer repository
(parsers for electrical / seismic / radar delimited text, the QC engine,
and the standardizer), together with theorems settling the frozen claims
about the natural-language specification.

Conventions of the embedding:
* pandas `DataFrame`s become `Table`: a list of column names plus a list of
  rows, each row a list of cells; a cell is `Value.null` (NaN), a rational
  number, or a string.  Rationals stand in for Python floats: every literal
  appearing in the source (range bounds, thresholds) is exact in `ℚ`, and no
  claim depends on float rounding.
* percentages and thresholds are computed in `ℚ` exactly as the source
  computes them (`x / y * 100`).
* exception values are modelled by the inductive `PyExc`; the textual parts
  of error messages that only interpolate already-known values are carried
  as structured payloads (`VMsg`, `QCMsg`) rather than formatted strings.
-/

namespace GeoData

/-- A cell of a pandas DataFrame: NaN, a float (modelled as `ℚ`), or a
string (object) value. -/
inductive Value where
  | null
  | num (q : ℚ)
  | str (s : String)
deriving DecidableEq, Repr

/-- A pandas DataFrame: named columns and positionally indexed rows.
Rows are aligned with `cols` (same length). -/
structure Table where
  cols : List String
  rows : List (List Value)
deriving DecidableEq, Repr

def Value.isStr : Value → Bool
  | .str _ => true
  | _ => false

def Value.isNull : Value → Bool
  | .null => true
  | _ => false

/-- `col in df.columns` (also `'col' in df` for DataFrames). -/
def Table.hasCol (t : Table) (c : String) : Bool :=
  t.cols.contains c

/-- Position of a column among `cols` (first occurrence). -/
def Table.colIdx (t : Table) (c : String) : Option Nat :=
  t.cols.findIdx? (· == c)

/-- `df[c]`: the cells of column `c`, top to bottom ([] if absent). -/
def Table.col (t : Table) (c : String) : List Value :=
  match t.colIdx c with
  | some i => t.rows.map (fun r => r.getD i Value.null)
  | none => []

/-- The non-null numeric cells of a column (pandas arithmetic and
comparisons skip NaN). -/
def numCells (cells : List Value) : List ℚ :=
  cells.filterMap (fun v => match v with | .num q => some q | _ => none)

/-- `df.isnull()` count for one column. -/
def nullCount (cells : List Value) : Nat :=
  (cells.filter (·.isNull)).length

/-- A column has numeric dtype (`select_dtypes(include=[np.number])`)
iff it holds no string cell; `read_csv` produces either an all-string or an
all-numeric (plus NaN) column, and an all-NaN column is float dtype. -/
def isNumericCol (cells : List Value) : Bool :=
  cells.all (fun v => !v.isStr)

/-- A column has object dtype iff it holds at least one string cell. -/
def isObjectCol (cells : List Value) : Bool :=
  cells.any (·.isStr)

/-! ## Numeric string parsing

`parseNumQ` models Python/pandas conversion of a text cell to a float:
optional sign, then digits with an optional decimal point (at least one
digit overall).  Scientific notation is not needed by any input considered
here and is left out of the model. -/

/-- Value of a digit string, `none` if empty or non-digits. -/
def digitsVal (cs : List Char) : Option Nat :=
  if cs = [] then none
  else if cs.all (·.isDigit) then
    some (cs.foldl (fun a c => a * 10 + (c.toNat - 48)) 0)
  else none

/-- `float(s)` / `pd.to_numeric` on a single token, as an exact rational. -/
def parseNumQ (s : String) : Option ℚ :=
  let (sign, body) : ℚ × List Char :=
    match s.toList with
    | '-' :: rest => (-1, rest)
    | '+' :: rest => (1, rest)
    | cs => (1, cs)
  match (String.mk body).splitOn "." with
  | [ip] =>
      (digitsVal ip.toList).map (fun v => sign * v)
  | [ip, fp] =>
      if ip.toList.all (·.isDigit) ∧ fp.toList.all (·.isDigit) ∧
          (ip ≠ "" ∨ fp ≠ "") then
        some (sign * ((digitsVal ip.toList).getD 0 +
          ((digitsVal fp.toList).getD 0 : ℚ) / (10 : ℚ) ^ fp.length))
      else none
  | _ => none

/-! ## QC engine (src/processors/qc_checker.py) -/

/-- A note produced by `_check_consistency`. -/
inductive ConsistencyNote where
  | zeroVariance (col : String)
  | objectButNumeric (col : String)
deriving DecidableEq, Repr

/-- Structured content of the message string each QC sub-check builds. -/
inductive QCMsg where
  | missingValues (total : Nat) (pct : ℚ) (byCol : List (String × Nat))
  | noMissing
  | duplicates (count : Nat) (pct : ℚ)
  | noDuplicates
  | outliers (info : List (String × Nat × ℚ))
  | noOutliers
  | consistency (notes : List ConsistencyNote)
  | noConsistencyIssues
deriving DecidableEq, Repr

/-- The `{has_issues, has_warnings, message}` dict a sub-check returns
(`has_warnings` absent in the source means false: `.get('has_warnings')`). -/
structure CheckResult where
  has_issues : Bool
  has_warnings : Bool
  message : QCMsg
deriving DecidableEq, Repr

namespace QCChecker

/-- `QCChecker._check_missing_values`. -/
def checkMissingValues (df : Table) : CheckResult :=
  let missingCols := (df.cols.map (fun c => (c, nullCount (df.col c)))).filter
    (fun p => p.2 > 0)
  if missingCols.length > 0 then
    let totalMissing := (missingCols.map Prod.snd).sum
    let totalValues := df.rows.length * df.cols.length
    let missingPct : ℚ := ((totalMissing : ℚ) / (totalValues : ℚ)) * 100
    let msg := QCMsg.missingValues totalMissing missingPct missingCols
    if missingPct > 10 then ⟨true, false, msg⟩
    else ⟨false, true, msg⟩
  else ⟨false, false, .noMissing⟩

/-- `df.duplicated().sum()` with the default `keep='first'`: a row counts as
a duplicate when an identical row occurred earlier. -/
def dupCountAux (seen : List (List Value)) : List (List Value) → Nat
  | [] => 0
  | r :: rs => (if seen.contains r then 1 else 0) + dupCountAux (r :: seen) rs

def dupCount (rows : List (List Value)) : Nat :=
  dupCountAux [] rows

/-- `QCChecker._check_duplicates`. -/
def checkDuplicates (df : Table) : CheckResult :=
  let duplicates := dupCount df.rows
  if duplicates > 0 then
    let dupPct : ℚ := ((duplicates : ℚ) / (df.rows.length : ℚ)) * 100
    let msg := QCMsg.duplicates duplicates dupPct
    if dupPct > 5 then ⟨true, false, msg⟩
    else ⟨false, true, msg⟩
  else ⟨false, false, .noDuplicates⟩

/-- `Series.quantile(q)` with the default linear interpolation, over the
sorted non-null values; `none` for an empty series (NaN). -/
def quantileQ (xs : List ℚ) (q : ℚ) : Option ℚ :=
  let s := List.insertionSort (· ≤ ·) xs
  if s.length = 0 then none
  else
    let pos : ℚ := q * ((s.length : ℚ) - 1)
    let i : Nat := (⌊pos⌋).toNat
    let frac : ℚ := pos - (i : ℚ)
    let lo := s.getD i 0
    let hi := s.getD (min (i + 1) (s.length - 1)) 0
    some (lo + frac * (hi - lo))

/-- `QCChecker._check_outliers`: IQR fences per numeric column; NaN cells
compare false on both sides and are never counted. -/
def checkOutliers (df : Table) : CheckResult :=
  let numericCols := df.cols.filter (fun c => isNumericCol (df.col c))
  let outlierInfo := numericCols.filterMap (fun c =>
    let xs := numCells (df.col c)
    match quantileQ xs (1/4), quantileQ xs (3/4) with
    | some q1, some q3 =>
        let iqr := q3 - q1
        let lowerBound := q1 - (3/2) * iqr
        let upperBound := q3 + (3/2) * iqr
        let outliers := (xs.filter (fun x => x < lowerBound || x > upperBound)).length
        if outliers > 0 then
          some (c, outliers, ((outliers : ℚ) / (df.rows.length : ℚ)) * 100)
        else none
    | _, _ => none)
  if outlierInfo ≠ [] then ⟨false, true, .outliers outlierInfo⟩
  else ⟨false, false, .noOutliers⟩

/-- `df[col].std() == 0`: the sample standard deviation (ddof = 1) over the
non-null cells is exactly zero iff there are at least two of them and they
are all equal (with fewer, `std()` is NaN and `NaN == 0` is false). -/
def stdIsZero (xs : List ℚ) : Bool :=
  2 ≤ xs.length && xs.all (fun x => x == xs.headD 0)

/-- `pd.to_numeric(df[col])` succeeds iff every cell is null or a
numerically parseable token. -/
def allCoercible (cells : List Value) : Bool :=
  cells.all (fun v => match v with
    | .str s => (parseNumQ s).isSome
    | _ => true)

/-- `QCChecker._check_consistency`: zero-variance numeric columns first,
then object columns whose values all coerce to numeric. -/
def checkConsistency (df : Table) : CheckResult :=
  let zeroVarNotes := (df.cols.filter (fun c =>
      isNumericCol (df.col c) && stdIsZero (numCells (df.col c)))).map
    ConsistencyNote.zeroVariance
  let objNumNotes := (df.cols.filter (fun c =>
      isObjectCol (df.col c) && allCoercible (df.col c))).map
    ConsistencyNote.objectButNumeric
  let notes := zeroVarNotes ++ objNumNotes
  if notes ≠ [] then ⟨false, true, .consistency notes⟩
  else ⟨false, false, .noConsistencyIssues⟩

/-- The `summary` dict of a QC result. -/
structure QCSummary where
  total_records : Nat
  total_columns : Nat
  issues_found : Nat
  warnings_found : Nat
deriving DecidableEq, Repr

/-- The aggregated QC result dict. -/
structure QCResult where
  passed : Bool
  issues : List QCMsg
  warnings : List QCMsg
  checks_run : List String
  summary : QCSummary
deriving DecidableEq, Repr

/-- `QCChecker.check`: runs the four sub-checks in order and aggregates.
Mirrors the source exactly: for `missing_values` an issue goes to `issues`
and otherwise a warning goes to `warnings`; for `duplicates` only
`has_issues` is consulted (the source has no `elif`/warning branch there,
so the `has_warnings` flag returned by `_check_duplicates` is dropped);
`outliers` and `consistency` only ever append to `warnings`. -/
def check (df : Table) : QCResult :=
  let missingResult := checkMissingValues df
  let issues1 : List QCMsg := if missingResult.has_issues then [missingResult.message] else []
  let warnings1 : List QCMsg :=
    if missingResult.has_issues then []
    else if missingResult.has_warnings then [missingResult.message] else []
  let duplicateResult := checkDuplicates df
  let issues2 := issues1 ++ (if duplicateResult.has_issues then [duplicateResult.message] else [])
  let outlierResult := checkOutliers df
  let warnings2 := warnings1 ++ (if outlierResult.has_warnings then [outlierResult.message] else [])
  let consistencyResult := checkConsistency df
  let warnings3 := warnings2 ++ (if consistencyResult.has_warnings then [consistencyResult.message] else [])
  let passed := issues2.length == 0
  { passed := passed
    issues := issues2
    warnings := warnings3
    checks_run := ["missing_values", "duplicates", "outliers", "consistency"]
    summary := ⟨df.rows.length, df.cols.length, issues2.length, warnings3.length⟩ }

end QCChecker

/-! ## Exceptions (src/core/base_parser.py)

`ParserError(Exception)`, `ValidationError(ParserError)`,
`FileFormatError(ParserError)`; the Python builtins `FileNotFoundError`,
`TypeError`, `KeyError` and `OSError` are outside the `ParserError`
family. -/

/-- Structured payload of a `ValidationError` message. -/
inductive VMsg where
  | noData
  | missingColumns (cols : List String)
  | outOfRange (col : String) (count : Nat) (lo hi : ℚ)
  | signViolation (msg : String)
deriving DecidableEq, Repr

/-- The exception values the embedded code can raise. -/
inductive PyExc where
  | parserError (msg : String)
  | validationError (m : VMsg)
  | fileFormatError (msg : String)
  | fileNotFoundError (path : String)
  | typeError (msg : String)
  | keyError (key : String)
  | osError (msg : String)
deriving DecidableEq, Repr

/-- Membership in the `ParserError` exception family
(`isinstance(e, ParserError)`). -/
def PyExc.isParserFamily : PyExc → Bool
  | .parserError _ => true
  | .validationError _ => true
  | .fileFormatError _ => true
  | _ => false

/-- `isinstance(e, ValidationError)`. -/
def PyExc.isValidationError : PyExc → Bool
  | .validationError _ => true
  | _ => false

/-! ## Parser construction (BaseParser.__init__ / _validate_file_path) -/

/-- What the filesystem holds at the parser's input path. -/
inductive FSEntry where
  | missing
  | directory
  | file (size : Nat)
deriving DecidableEq, Repr

/-- `BaseParser._validate_file_path`: a missing path raises the builtin
`FileNotFoundError`; a non-file path and an empty file raise
`ParserError`. -/
def validateFilePath (path : String) (entry : FSEntry) : Except PyExc Unit :=
  match entry with
  | .missing => .error (.fileNotFoundError path)
  | .directory => .error (.parserError ("Path is not a file: " ++ path))
  | .file size =>
      if ¬ size > 0 then .error (.parserError ("File is empty: " ++ path))
      else .ok ()

/-- A metadata value: `None`, an int, a float, a string, or a 2-tuple. -/
inductive MValue where
  | mnull
  | mint (n : Int)
  | mnum (q : ℚ)
  | mstr (s : String)
  | mpair (a b : MValue)
deriving DecidableEq, Repr

/-- A Python dict with string keys, in insertion order. -/
abbrev Metadata := List (String × MValue)

/-- `d[k] = v`: overwrite in place, or append a new key. -/
def mset (md : Metadata) (k : String) (v : MValue) : Metadata :=
  if md.any (fun p => p.1 == k) then
    md.map (fun p => if p.1 == k then (k, v) else p)
  else md ++ [(k, v)]

/-- `d.get(k)`. -/
def mget (md : Metadata) (k : String) : Option MValue :=
  (md.find? (fun p => p.1 == k)).map Prod.snd

/-- `Path(p).name`: the final path component. -/
def fileName (path : String) : String :=
  (path.splitOn "/").getLastD path

/-- The fields `BaseParser.__init__` sets. `src` is the file content the
construction-time check saw; §load reads it back. -/
structure ParserState where
  src : String
  metadata : Metadata
  data : Option Table
  raw_data : Option String
  is_loaded : Bool
  is_parsed : Bool
  is_validated : Bool
deriving DecidableEq, Repr

/-- The state of a freshly constructed parser (all lifecycle flags false,
no data). -/
def parserInitState (path content createdAt : String) : ParserState :=
  { src := content
    metadata := [("file_name", .mstr (fileName path)),
                 ("file_path", .mstr path),
                 ("created_at", .mstr createdAt)]
    data := none
    raw_data := none
    is_loaded := false
    is_parsed := false
    is_validated := false }

/-- `BaseParser.__init__`: sets the fields and then calls
`_validate_file_path`, whose exception (if any) propagates out of the
constructor. -/
def parserInit (path content createdAt : String) (entry : FSEntry) :
    Except PyExc ParserState :=
  match validateFilePath path entry with
  | .ok _ => .ok (parserInitState path content createdAt)
  | .error e => .error e

/-! ## pd.read_csv on the raw text

Columns are inferred per column: if every non-empty token of a column
parses numerically the column is numeric, otherwise all its non-empty
tokens stay strings (object dtype); empty tokens are NaN either way.
Blank lines are skipped (`skip_blank_lines=True`); a row whose field count
differs from the header is a tokenizing error, and headerless input is an
`EmptyDataError` — both get wrapped into `ParserError` by `parse`. -/

def inferCol (raw : List String) : List Value :=
  if raw.all (fun c => (c == "") || (parseNumQ c).isSome) then
    raw.map (fun c =>
      if c = "" then .null
      else match parseNumQ c with | some q => .num q | none => .null)
  else
    raw.map (fun c => if c = "" then .null else .str c)

def read_csv (s : String) : Except String Table :=
  let lines := (s.splitOn "\n").filter (fun l => l ≠ "")
  match lines with
  | [] => .error "No columns to parse from file"
  | header :: body =>
      let cols := header.splitOn ","
      let cells := body.map (fun l => l.splitOn ",")
      if cells.all (fun r => r.length = cols.length) then
        let colVals := (List.range cols.length).map
          (fun j => inferCol (cells.map (fun r => r.getD j "")))
        .ok { cols := cols
              rows := (List.range cells.length).map
                (fun i => colVals.map (fun cv => cv.getD i Value.null)) }
      else .error "Error tokenizing data"

/-- `BaseParser._standardize_column_names`: rename only the columns that
exist, via the alias dict. -/
def standardizeColumnNames (df : Table) (columnMap : List (String × String)) :
    Table :=
  let renames := columnMap.filter (fun p => df.cols.contains p.1)
  { df with cols := df.cols.map (fun c =>
      match renames.find? (fun p => p.1 == c) with
      | some p => p.2
      | none => c) }

/-! ## Per-variant metadata summaries -/

/-- `Series.nunique()`: distinct non-null values. -/
def nunique (cells : List Value) : Nat :=
  ((cells.filter (fun v => !v.isNull)).dedup).length

/-- `Series.min()`: NaN skipped; NaN (here `mnull`) when nothing is left.
Object columns take the lexicographic minimum.  (Columns produced by
`read_csv` are never mixed string/number.) -/
def colMin (cells : List Value) : MValue :=
  if isNumericCol cells then
    match (numCells cells).min? with
    | some q => .mnum q
    | none => .mnull
  else
    match (cells.filterMap (fun v =>
        match v with | .str s => some s | _ => none)).min? with
    | some s => .mstr s
    | none => .mnull

/-- `Series.max()`; see `colMin`. -/
def colMax (cells : List Value) : MValue :=
  if isNumericCol cells then
    match (numCells cells).max? with
    | some q => .mnum q
    | none => .mnull
  else
    match (cells.filterMap (fun v =>
        match v with | .str s => some s | _ => none)).max? with
    | some s => .mstr s
    | none => .mnull

/-- `ElecParser.parse`'s `self.metadata.update({...})`. -/
def elecUpdateMeta (md : Metadata) (df : Table) : Metadata :=
  let md := mset md "data_type" (.mstr "electrical_resistivity")
  let md := mset md "record_count" (.mint df.rows.length)
  let md := mset md "stations"
    (.mint (if df.hasCol "station_id" then (nunique (df.col "station_id") : Int) else 0))
  let md := mset md "depth_range_m"
    (if df.hasCol "depth_m" then
      .mpair (colMin (df.col "depth_m")) (colMax (df.col "depth_m"))
    else .mnull)
  mset md "resistivity_range_ohm_m"
    (if df.hasCol "resistivity_ohm_m" then
      .mpair (colMin (df.col "resistivity_ohm_m")) (colMax (df.col "resistivity_ohm_m"))
    else .mnull)

/-- `SeismicParser.parse`'s metadata update. -/
def seismicUpdateMeta (md : Metadata) (df : Table) : Metadata :=
  let md := mset md "data_type" (.mstr "seismic")
  let md := mset md "record_count" (.mint df.rows.length)
  let md := mset md "traces"
    (.mint (if df.hasCol "trace_number" then (nunique (df.col "trace_number") : Int) else 0))
  let md := mset md "time_range_ms"
    (if df.hasCol "time_ms" then
      .mpair (colMin (df.col "time_ms")) (colMax (df.col "time_ms"))
    else .mnull)
  mset md "amplitude_range"
    (if df.hasCol "amplitude" then
      .mpair (colMin (df.col "amplitude")) (colMax (df.col "amplitude"))
    else .mnull)

/-- `RadarParser.parse`'s metadata update. -/
def radarUpdateMeta (md : Metadata) (df : Table) : Metadata :=
  let md := mset md "data_type" (.mstr "radar")
  let md := mset md "record_count" (.mint df.rows.length)
  let md := mset md "traces"
    (.mint (if df.hasCol "trace_number" then (nunique (df.col "trace_number") : Int) else 0))
  let md := mset md "samples_per_trace"
    (.mint (if df.hasCol "sample_number" then (nunique (df.col "sample_number") : Int) else 0))
  let md := mset md "amplitude_range"
    (if df.hasCol "amplitude" then
      .mpair (colMin (df.col "amplitude")) (colMax (df.col "amplitude"))
    else .mnull)
  mset md "distance_range_m"
    (if df.hasCol "distance_m" then
      .mpair (colMin (df.col "distance_m")) (colMax (df.col "distance_m"))
    else .mnull)

/-! ## Validation checks -/

/-- `BaseParser._check_required_columns`. -/
def checkRequiredColumns (df : Table) (required : List String) :
    Except PyExc Unit :=
  let missing := required.filter (fun c => !(df.cols.contains c))
  if missing ≠ [] then .error (.validationError (.missingColumns missing))
  else .ok ()

/-- `((data[c] < lo) | (data[c] > hi)).sum()`: NaN compares false on both
sides; comparing an object (string-bearing) column with a number raises
`TypeError`. -/
def seriesOutOfRange (cells : List Value) (lo hi : ℚ) : Except PyExc Nat :=
  if cells.any (·.isStr) then
    .error (.typeError "not supported between instances of str and num")
  else
    .ok ((numCells cells).filter
      (fun x => decide (x < lo) || decide (x > hi))).length

/-- `BaseParser._check_value_ranges`: iterate the range map in order,
skipping absent columns, failing on the first column with any
out-of-range value. -/
def checkValueRanges (df : Table) :
    List (String × ℚ × ℚ) → Except PyExc Unit
  | [] => .ok ()
  | (c, lo, hi) :: rest =>
      if ¬ df.hasCol c then checkValueRanges df rest
      else
        match seriesOutOfRange (df.col c) lo hi with
        | .error e => .error e
        | .ok n =>
            if n > 0 then .error (.validationError (.outOfRange c n lo hi))
            else checkValueRanges df rest

/-- `(data[c] < b).any()` with the same NaN / TypeError semantics. -/
def seriesAnyLt (cells : List Value) (b : ℚ) : Except PyExc Bool :=
  if cells.any (·.isStr) then
    .error (.typeError "not supported between instances of str and num")
  else .ok ((numCells cells).any (fun x => decide (x < b)))

/-- `(data[c] <= b).any()`. -/
def seriesAnyLe (cells : List Value) (b : ℚ) : Except PyExc Bool :=
  if cells.any (·.isStr) then
    .error (.typeError "not supported between instances of str and num")
  else .ok ((numCells cells).any (fun x => decide (x ≤ b)))

/-- A variant's trailing sign constraint: `(data[col] < 0).any()` or
`(data[col] <= 0).any()`, raising `ValidationError(msg)` when it holds.
`data[col]` on an absent column is a `KeyError` (unreachable after the
required-columns check, since every sign-checked column is required). -/
inductive SignCheck where
  | noNegative (col msg : String)
  | strictlyPositive (col msg : String)

def runSignCheck (df : Table) : SignCheck → Except PyExc Unit
  | .noNegative c msg =>
      if ¬ df.hasCol c then .error (.keyError c)
      else
        match seriesAnyLt (df.col c) 0 with
        | .error e => .error e
        | .ok b =>
            if b then .error (.validationError (.signViolation msg)) else .ok ()
  | .strictlyPositive c msg =>
      if ¬ df.hasCol c then .error (.keyError c)
      else
        match seriesAnyLe (df.col c) 0 with
        | .error e => .error e
        | .ok b =>
            if b then .error (.validationError (.signViolation msg)) else .ok ()

def runSignChecks (df : Table) : List SignCheck → Except PyExc Unit
  | [] => .ok ()
  | sc :: rest =>
      match runSignCheck df sc with
      | .error e => .error e
      | .ok _ => runSignChecks df rest

/-! ## The three parser variants

Each subclass repeats the same `load`/`parse`/`validate` shape with its
own alias table, metadata summary, required columns, range map and sign
constraints; `VariantSpec` collects exactly those per-variant constants. -/

structure VariantSpec where
  columnMap : List (String × String)
  updateMeta : Metadata → Table → Metadata
  required : List String
  rangeMap : List (String × ℚ × ℚ)
  signChecks : List SignCheck
  parseFailCtx : String

/-- `ElecParser`'s constants (src/parsers/elec_parser.py). -/
def elecSpec : VariantSpec :=
  { columnMap :=
      [("station", "station_id"), ("Station", "station_id"), ("STATION", "station_id"),
       ("depth", "depth_m"), ("Depth", "depth_m"), ("DEPTH", "depth_m"),
       ("depth_m", "depth_m"),
       ("resistance", "resistivity_ohm_m"), ("resistivity", "resistivity_ohm_m"),
       ("Resistivity", "resistivity_ohm_m"), ("RESISTIVITY", "resistivity_ohm_m"),
       ("current", "current_ma"), ("Current", "current_ma"),
       ("voltage", "voltage_mv"), ("Voltage", "voltage_mv")]
    updateMeta := elecUpdateMeta
    required := ["station_id", "depth_m", "resistivity_ohm_m"]
    rangeMap :=
      [("depth_m", 0, 10000), ("resistivity_ohm_m", 1/1000, 1000000),
       ("current_ma", 0, 10000), ("voltage_mv", 0, 100000)]
    signChecks :=
      [.noNegative "depth_m" "Depth values cannot be negative",
       .strictlyPositive "resistivity_ohm_m" "Resistivity values must be positive"]
    parseFailCtx := "Failed to parse electrical data: " }

/-- `SeismicParser`'s constants (src/parsers/seismic_parser.py). -/
def seismicSpec : VariantSpec :=
  { columnMap :=
      [("trace", "trace_number"), ("Trace", "trace_number"), ("TRACE", "trace_number"),
       ("time", "time_ms"), ("Time", "time_ms"), ("TIME", "time_ms"),
       ("time_ms", "time_ms"),
       ("amp", "amplitude"), ("Amplitude", "amplitude"), ("AMPLITUDE", "amplitude"),
       ("station", "station_id"), ("Station", "station_id"),
       ("offset", "offset_m"), ("Offset", "offset_m")]
    updateMeta := seismicUpdateMeta
    required := ["trace_number", "time_ms", "amplitude"]
    rangeMap :=
      [("time_ms", 0, 100000), ("amplitude", -1000000, 1000000),
       ("offset_m", 0, 100000)]
    signChecks := [.noNegative "time_ms" "Time values cannot be negative"]
    parseFailCtx := "Failed to parse seismic data: " }

/-- `RadarParser`'s constants (src/parsers/radar_parser.py). -/
def radarSpec : VariantSpec :=
  { columnMap :=
      [("trace", "trace_number"), ("Trace", "trace_number"), ("TRACE", "trace_number"),
       ("sample", "sample_number"), ("Sample", "sample_number"), ("SAMPLE", "sample_number"),
       ("amp", "amplitude"), ("Amplitude", "amplitude"), ("AMPLITUDE", "amplitude"),
       ("distance", "distance_m"), ("Distance", "distance_m"),
       ("time", "time_ns"), ("Time", "time_ns"), ("time_ns", "time_ns"),
       ("frequency", "antenna_freq_mhz"), ("freq", "antenna_freq_mhz"),
       ("antenna_frequency", "antenna_freq_mhz")]
    updateMeta := radarUpdateMeta
    required := ["trace_number", "sample_number", "amplitude"]
    rangeMap :=
      [("sample_number", 0, 100000), ("amplitude", -32768, 32767),
       ("distance_m", 0, 10000), ("time_ns", 0, 1000000),
       ("antenna_freq_mhz", 10, 5000)]
    signChecks := [.noNegative "sample_number" "Sample numbers cannot be negative"]
    parseFailCtx := "Failed to parse GPR data: " }

/-! ## Lifecycle operations

Each method returns its result (or the exception it raises) together with
the parser's state afterwards — Python exceptions do not roll back
attribute assignments, and every method here assigns its attributes only
after the point where it can no longer raise, so a failing call leaves the
state exactly as it was. -/

/-- The `{'metadata': ..., 'data': ...}` dict `parse`/`process` return. -/
structure ParsedResult where
  metadata : Metadata
  data : Option Table
deriving DecidableEq, Repr

/-- `load`: re-reads the content captured at construction (the file was
checked to exist and be non-empty there), stores it and sets
`is_loaded`. -/
def loadOp (st : ParserState) : Except PyExc Unit × ParserState :=
  (.ok (), { st with raw_data := some st.src, is_loaded := true })

/-- `parse` of a variant: requires `is_loaded`; reads the raw text as CSV,
renames columns, updates metadata, stores the table and sets `is_parsed`;
wraps any parse failure in `ParserError`. -/
def parseOp (v : VariantSpec) (st : ParserState) :
    Except PyExc ParsedResult × ParserState :=
  if ¬ st.is_loaded then
    (.error (.parserError "Data must be loaded first. Call load() before parse()."), st)
  else
    match read_csv (st.raw_data.getD "") with
    | .error e => (.error (.parserError (v.parseFailCtx ++ e)), st)
    | .ok df0 =>
        let df := standardizeColumnNames df0 v.columnMap
        let md := v.updateMeta st.metadata df
        (.ok ⟨md, some df⟩,
         { st with metadata := md, data := some df, is_parsed := true })

/-- `validate(data=None)` of a variant: falls back to `self.data`, raises
`ValidationError` when there is nothing to validate, then runs the
required-columns, value-range and sign checks in order; only on full
success sets `is_validated` (and only that flag — the explicitly passed
table is never stored). -/
def validateOp (v : VariantSpec) (st : ParserState) (arg : Option Table) :
    Except PyExc Bool × ParserState :=
  let data := match arg with
    | some d => some d
    | none => st.data
  match data with
  | none => (.error (.validationError .noData), st)
  | some df =>
      match checkRequiredColumns df v.required with
      | .error e => (.error e, st)
      | .ok _ =>
          match checkValueRanges df v.rangeMap with
          | .error e => (.error e, st)
          | .ok _ =>
              match runSignChecks df v.signChecks with
              | .error e => (.error e, st)
              | .ok _ => (.ok true, { st with is_validated := true })

/-- `BaseParser.process(skip_validation)`: load, parse and validate in
sequence, each skipped when its flag is already set. -/
def processOp (v : VariantSpec) (st : ParserState) (skip : Bool) :
    Except PyExc ParsedResult × ParserState :=
  let (r1, st1) := if ¬ st.is_loaded then loadOp st else (.ok (), st)
  match r1 with
  | .error e => (.error e, st1)
  | .ok _ =>
      let (r2, st2) :=
        if ¬ st1.is_parsed then parseOp v st1
        else (.ok ⟨st1.metadata, st1.data⟩, st1)
      match r2 with
      | .error e => (.error e, st2)
      | .ok result =>
          let (r3, st3) :=
            if ¬ skip ∧ ¬ st2.is_validated then
              (let p := validateOp v st2 none; ((p.1.map fun _ => ()), p.2))
            else (.ok (), st2)
          match r3 with
          | .error e => (.error e, st3)
          | .ok _ => (.ok result, st3)

/-! ## Call sequences over one parser instance -/

/-- One public method call on a parser instance. -/
inductive ParserCall where
  | load
  | parse
  | validate (arg : Option Table)
  | process (skip : Bool)

/-- The parser's state after one call, whether it raised or returned. -/
def stepCall (v : VariantSpec) (st : ParserState) : ParserCall → ParserState
  | .load => (loadOp st).2
  | .parse => (parseOp v st).2
  | .validate arg => (validateOp v st arg).2
  | .process skip => (processOp v st skip).2

/-- The parser's state after a sequence of calls. -/
def runCalls (v : VariantSpec) (st : ParserState) : List ParserCall → ParserState
  | [] => st
  | c :: cs => runCalls v (stepCall v st c) cs

/-! ## Standardizer (src/processors/standardizer.py) -/

/-- `df.reindex(cs, axis=1)`: keep the rows, take the listed columns in
the given order (a label the frame lacks would yield an all-NaN column). -/
def Table.select (df : Table) (cs : List String) : Table :=
  { cols := cs
    rows := df.rows.map (fun r => cs.map (fun c =>
      match df.colIdx c with
      | some i => r.getD i Value.null
      | none => Value.null)) }

/-- `df.reindex(sorted(df.columns), axis=1)`. -/
def sortColumnsLex (df : Table) : Table :=
  df.select (List.insertionSort (· ≤ ·) df.cols)

/-- `df.dropna(how='all')`: drop the rows whose every cell is null. -/
def dropAllNullRows (df : Table) : Table :=
  { df with rows := df.rows.filter (fun r => !(r.all (·.isNull))) }

/-- `df.reset_index(drop=True)`: rows are indexed positionally in this
model, so renumbering the index changes nothing observable. -/
def resetIndex (df : Table) : Table := df

/-- `Standardizer._apply_common_standards`. -/
def applyCommonStandards (df : Table) : Table :=
  resetIndex (dropAllNullRows (sortColumnsLex df))

/-- `str(x)` on a cell, as `astype(str)` applies it (NaN renders as
`"nan"`); the exact rendering of numbers is presentational and no claim
depends on it. -/
def pyStr : Value → String
  | .null => "nan"
  | .str s => s
  | .num q => toString q

/-- `pd.to_numeric(x, errors='coerce')` on one cell: non-convertible
values become null rather than raising. -/
def coerceNumeric : Value → Value
  | .num q => .num q
  | .null => .null
  | .str s => match parseNumQ s with | some q => .num q | none => .null

/-- `df[c] = f(df[c])`: rewrite one column in place (no-op if absent). -/
def Table.mapCol (df : Table) (c : String) (f : Value → Value) : Table :=
  match df.colIdx c with
  | some i =>
      { df with rows := df.rows.map (fun r =>
          r.mapIdx (fun j v => if j = i then f v else v)) }
  | none => df

/-- `Standardizer._standardize_electrical`. -/
def standardizeElectrical (df : Table) : Table :=
  let df1 := if df.hasCol "station_id" then
    df.mapCol "station_id" (fun v => .str (pyStr v)) else df
  let df2 := if df1.hasCol "depth_m" then
    df1.mapCol "depth_m" coerceNumeric else df1
  if df2.hasCol "resistivity_ohm_m" then
    df2.mapCol "resistivity_ohm_m" coerceNumeric else df2

/-- `Standardizer._standardize_seismic`. -/
def standardizeSeismic (df : Table) : Table :=
  let df1 := if df.hasCol "trace_number" then
    df.mapCol "trace_number" coerceNumeric else df
  let df2 := if df1.hasCol "time_ms" then
    df1.mapCol "time_ms" coerceNumeric else df1
  if df2.hasCol "amplitude" then
    df2.mapCol "amplitude" coerceNumeric else df2

/-- `Standardizer._standardize_radar`. -/
def standardizeRadar (df : Table) : Table :=
  let df1 := if df.hasCol "trace_number" then
    df.mapCol "trace_number" coerceNumeric else df
  let df2 := if df1.hasCol "sample_number" then
    df1.mapCol "sample_number" coerceNumeric else df1
  if df2.hasCol "amplitude" then
    df2.mapCol "amplitude" coerceNumeric else df2

/-- The `{'metadata': ..., 'data': ...}` dict `standardize` consumes and
produces (the table is always present here). -/
structure DataDict where
  metadata : Metadata
  data : Table
deriving DecidableEq, Repr

namespace Standardizer

/-- `Standardizer.standardize` (value-level): copies are implicit in the
functional model; `now` stands for `datetime.now().isoformat()`.  The
`data_type` dispatch has no `else` branch in the source, so an
unrecognized tag gets only the common standardizations. -/
def standardize (parsed : DataDict) (data_type : String) (now : String) :
    DataDict :=
  let df := parsed.data
  let md := parsed.metadata
  let md := mset md "standardized_at" (.mstr now)
  let md := mset md "standardization_version" (.mstr "1.0")
  let md := mset md "data_type" (.mstr data_type)
  let df := applyCommonStandards df
  let df :=
    if data_type == "electrical" then standardizeElectrical df
    else if data_type == "seismic" then standardizeSeismic df
    else if data_type == "radar" then standardizeRadar df
    else df
  { metadata := md, data := df }

end Standardizer

/-! ## Object-identity model of `standardize`

To settle the no-mutation / no-aliasing claim, the same method is embedded
once more over an explicit object store: tables and metadata dicts live at
indices of a `Heap`, `.copy()` and the pandas transformations allocate
fresh objects, and the in-place operations of the source (`metadata[k] =
v`, `df[col] = ...`) overwrite the object they act on. -/

structure Heap where
  tables : List Table
  metas : List Metadata

/-- `Standardizer.standardize` over the store: `ti`/`mi` are the indices
of the caller's table and metadata objects; returns the store afterwards
and the indices of the returned table and metadata objects. -/
def standardizeOnHeap (h : Heap) (ti mi : Nat) (data_type now : String) :
    Heap × Nat × Nat :=
  -- df = parsed_data['data'].copy() : a fresh, equal table object
  let di := h.tables.length
  let h1 : Heap := { h with tables := h.tables ++ [h.tables.getD ti ⟨[], []⟩] }
  -- metadata = parsed_data['metadata'].copy() : a fresh, equal dict object
  let mj := h1.metas.length
  let h2 : Heap := { h1 with metas := h1.metas ++ [h1.metas.getD mi []] }
  -- the three `metadata[...] = ...` assignments mutate the copy in place
  let updatedMeta :=
    mset (mset (mset (h2.metas.getD mj [])
        "standardized_at" (.mstr now))
      "standardization_version" (.mstr "1.0"))
      "data_type" (.mstr data_type)
  let h3 : Heap := { h2 with metas := h2.metas.set mj updatedMeta }
  -- df = self._apply_common_standards(df): reindex, dropna and
  -- reset_index each return a fresh frame; df is rebound to the result
  let di2 := h3.tables.length
  let h4 : Heap := { h3 with tables :=
      h3.tables ++ [applyCommonStandards (h3.tables.getD di ⟨[], []⟩)] }
  -- the variant-specific coercions assign columns of df in place
  let coerced :=
    if data_type == "electrical" then
      standardizeElectrical (h4.tables.getD di2 ⟨[], []⟩)
    else if data_type == "seismic" then
      standardizeSeismic (h4.tables.getD di2 ⟨[], []⟩)
    else if data_type == "radar" then
      standardizeRadar (h4.tables.getD di2 ⟨[], []⟩)
    else h4.tables.getD di2 ⟨[], []⟩
  let h5 : Heap := { h4 with tables := h4.tables.set di2 coerced }
  (h5, di2, mj)

/-! ## Standardizer.write_output -/

/-- An arbitrary Python value as the metadata sidecar writer sees it:
native scalars, numpy wrapper types, arrays, containers, and objects of
any other class (`objref`), which `json.dump` rejects. -/
inductive PyObj where
  | pnone
  | pint (n : Int)
  | pfloat (q : ℚ)
  | pstr (s : String)
  | pbool (b : Bool)
  | npint (n : Int)
  | npfloat (q : ℚ)
  | nparray (xs : List PyObj)
  | plist (xs : List PyObj)
  | ptuple (xs : List PyObj)
  | pdict (kvs : List (String × PyObj))
  | objref (descr : String)
deriving Repr

/-- The `convert_numpy_types` helper inside `write_output`: unwrap numpy
scalars, turn arrays into lists, recurse into dicts/lists/tuples, pass
everything else through unchanged. -/
def convertNumpyTypes : PyObj → PyObj
  | .npint n => .pint n
  | .npfloat q => .pfloat q
  | .nparray xs => .plist (xs.attach.map (fun x => convertNumpyTypes x.1))
  | .pdict kvs => .pdict (kvs.attach.map (fun p => (p.1.1, convertNumpyTypes p.1.2)))
  | .plist xs => .plist (xs.attach.map (fun x => convertNumpyTypes x.1))
  | .ptuple xs => .plist (xs.attach.map (fun x => convertNumpyTypes x.1))
  | .pnone => .pnone
  | .pint n => .pint n
  | .pfloat q => .pfloat q
  | .pstr s => .pstr s
  | .pbool b => .pbool b
  | .objref d => .objref d
decreasing_by
  all_goals simp_wf
  all_goals try (have hs := List.sizeOf_lt_of_mem x.2; omega)
  all_goals
    (obtain ⟨⟨k, v⟩, hp⟩ := p
     have := List.sizeOf_lt_of_mem hp
     simp at this ⊢
     omega)

/-- What `json.dump` accepts: native scalars, and lists/tuples/dicts of
such; numpy types, arrays and arbitrary objects raise `TypeError`. -/
def jsonSafe : PyObj → Bool
  | .pnone => true
  | .pint _ => true
  | .pfloat _ => true
  | .pstr _ => true
  | .pbool _ => true
  | .plist xs => xs.attach.all (fun x => jsonSafe x.1)
  | .ptuple xs => xs.attach.all (fun x => jsonSafe x.1)
  | .pdict kvs => kvs.attach.all (fun p => jsonSafe p.1.2)
  | _ => false
decreasing_by
  all_goals simp_wf
  all_goals try (have hs := List.sizeOf_lt_of_mem x.2; omega)
  all_goals
    (obtain ⟨⟨k, v⟩, hp⟩ := p
     have := List.sizeOf_lt_of_mem hp
     simp at this ⊢
     omega)

/-- The message of the `TypeError` `json.dump` raises. -/
def jsonDumpTypeErrorMsg : String := "Object is not JSON serializable"

namespace Standardizer

/-- `Standardizer.write_output`: mkdir the parent, serialize the table via
the format-selected pandas writer, then (when requested and the metadata
dict is non-empty) convert numpy types and `json.dump` the sidecar.  The
method has no `try`/`except`, so each underlying failure — modelled by the
`Except` outcomes of the mkdir, data-write and sidecar-open effects, and
by `json.dump`'s own `TypeError` — propagates unchanged.  Returns whether
the sidecar was written. -/
def writeOutput (mkdirResult dataWriteResult metaOpenResult : Except PyExc Unit)
    (metadata : List (String × PyObj)) (include_metadata : Bool) :
    Except PyExc Bool :=
  match mkdirResult with
  | .error e => .error e
  | .ok _ =>
      match dataWriteResult with
      | .error e => .error e
      | .ok _ =>
          if include_metadata && !metadata.isEmpty then
            let metadataJson :=
              PyObj.pdict (metadata.map (fun p => (p.1, convertNumpyTypes p.2)))
            match metaOpenResult with
            | .error e => .error e
            | .ok _ =>
                if jsonSafe metadataJson then .ok true
                else .error (.typeError jsonDumpTypeErrorMsg)
          else .ok false

end Standardizer

deriving instance DecidableEq for Except

/-! ## Concrete inputs used by the witnesses and counterexamples -/

/-- A one-column numeric table with 20 rows of which exactly one is a
duplicate of an earlier row: duplicate percentage exactly 5. -/
def dupTable20 : Table :=
  { cols := ["a"]
    rows := ((List.range 19).map (fun n => [Value.num n])) ++ [[Value.num 0]] }

/-- The spec's end-to-end electrical example file. -/
def elecCSV : String :=
  "station_id,depth_m,resistivity_ohm_m\nS001,0.5,150.2\nS001,1.0,145.8\nS002,0.5,220.1"

def elecSt0 : ParserState := parserInitState "data.csv" elecCSV "t0"

/-- The table `ElecParser.parse` produces from `elecCSV`. -/
def elecParsedTable : Table :=
  ⟨["station_id", "depth_m", "resistivity_ohm_m"],
   [[.str "S001", .num (1/2), .num (751/5)],
    [.str "S001", .num 1, .num (729/5)],
    [.str "S002", .num (1/2), .num (2201/10)]]⟩

/-- The metadata `ElecParser.parse` produces from `elecCSV`. -/
def elecParsedMeta : Metadata :=
  [("file_name", .mstr "data.csv"), ("file_path", .mstr "data.csv"),
   ("created_at", .mstr "t0"), ("data_type", .mstr "electrical_resistivity"),
   ("record_count", .mint 3), ("stations", .mint 2),
   ("depth_range_m", .mpair (.mnum (1/2)) (.mnum 1)),
   ("resistivity_range_ohm_m", .mpair (.mnum (729/5)) (.mnum (2201/10)))]

/-- The parser state after a successful full `process()` on `elecCSV`. -/
def elecStDone : ParserState :=
  { src := elecCSV, metadata := elecParsedMeta, data := some elecParsedTable,
    raw_data := some elecCSV, is_loaded := true, is_parsed := true,
    is_validated := true }

/-- A minimal valid electrical table, used to drive `validate` with an
explicitly passed table. -/
def goodElecTable : Table :=
  { cols := ["station_id", "depth_m", "resistivity_ohm_m"]
    rows := [[Value.str "S1", Value.num 1, Value.num 100]] }

/-- The out-of-range cell count `((data[c] < lo) | (data[c] > hi)).sum()`
computes for a present, string-free column. -/
def oorCount (df : Table) (c : String) (lo hi : ℚ) : Nat :=
  ((numCells (df.col c)).filter (fun x => decide (x < lo) || decide (x > hi))).length

/-- An electrical table whose every range-checked value sits exactly on a
declared bound: depth at its min 0, resistivity at its min 0.001, current
at its max 10000, voltage at its max 100000. -/
def boundaryElecTable : Table :=
  { cols := ["station_id", "depth_m", "resistivity_ohm_m", "current_ma", "voltage_mv"]
    rows := [[Value.str "S1", Value.num 0, Value.num (1/1000),
              Value.num 10000, Value.num 100000]] }

/-- A parsed dataset fed to `standardize` under an unrecognized tag. -/
def gravityDict : DataDict :=
  ⟨[("source", MValue.mstr "g.csv")], ⟨["b", "a"], [[Value.num 1, Value.null]]⟩⟩

/-- A one-table, one-dict object store for the heap-model witness. -/
def witnessHeap : Heap :=
  ⟨[⟨["a"], [[Value.num 1]]⟩], [[("k", MValue.mint 7)]]⟩

/-- `b` is reachable from `a` without un-setting any lifecycle flag, and
the `is_parsed → is_loaded` invariant is preserved along the way. -/
def MonoInv (a b : ParserState) : Prop :=
  a.is_loaded ≤ b.is_loaded ∧ a.is_parsed ≤ b.is_parsed ∧
  a.is_validated ≤ b.is_validated ∧
  (a.is_parsed ≤ a.is_loaded → b.is_parsed ≤ b.is_loaded)

/-! ## Shared lemmas -/

theorem mget_mset (md : Metadata) (k : String) (v : MValue) :
    mget (mset md k v) k = some v := by
  unfold mget mset
  by_cases h : md.any (fun p => p.1 == k)
  · rw [if_pos h]
    induction md with
    | nil => simp at h
    | cons p rest ih =>
        by_cases hp : (p.1 == k) = true
        · simp only [List.map_cons, if_pos hp]
          rw [List.find?_cons_of_pos]
          · rfl
          · simp
        · simp only [List.map_cons, if_neg hp]
          rw [List.find?_cons_of_neg
            (List.map (fun p => if (p.1 == k) = true then (k, v) else p) rest) hp]
          apply ih
          rcases List.any_eq_true.mp h with ⟨q, hq, hqk⟩
          rcases List.mem_cons.mp hq with rfl | hq'
          · exact absurd hqk hp
          · exact List.any_eq_true.mpr ⟨q, hq', hqk⟩
  · rw [if_neg h]
    have hnone : (md.find? (fun p => p.1 == k)) = none := by
      rw [List.find?_eq_none]
      intro p hp hc
      exact h (List.any_eq_true.mpr ⟨p, hp, hc⟩)
    rw [List.find?_append, hnone]
    simp [List.find?_cons_of_pos]

/-- A failed `validate` leaves the state unchanged; a successful one only
sets `is_validated`. -/
theorem validateOp_state (v : VariantSpec) (st : ParserState) (arg : Option Table) :
    (validateOp v st arg).2 = st ∨
    (validateOp v st arg).2 = { st with is_validated := true } := by
  unfold validateOp
  repeat' (first | split | dsimp only)
  all_goals first | (left; rfl) | (right; rfl)

/-- A failed `parse` leaves the state unchanged; a successful one requires
`is_loaded`, keeps it, sets `is_parsed` and stores a table. -/
theorem parseOp_state (v : VariantSpec) (st : ParserState) :
    (parseOp v st).2 = st ∨
    (st.is_loaded = true ∧ (parseOp v st).2.is_loaded = true ∧
      (parseOp v st).2.is_parsed = true ∧
      (parseOp v st).2.is_validated = st.is_validated ∧
      (parseOp v st).2.data.isSome = true) := by
  unfold parseOp
  by_cases h : st.is_loaded = true
  · rw [if_neg (by simp [h])]
    cases hr : read_csv (st.raw_data.getD "") with
    | error e => left; rfl
    | ok df0 => right; exact ⟨h, by simp [h], rfl, rfl, rfl⟩
  · rw [if_pos (by simp [h])]
    left; rfl

/-- `load` stores the content and sets `is_loaded`, nothing else. -/
theorem loadOp_state (st : ParserState) :
    (loadOp st).2 = { st with raw_data := some st.src, is_loaded := true } := rfl

theorem validateOp_ok_state (v : VariantSpec) (st : ParserState) (arg : Option Table)
    (b : Bool) (st3 : ParserState) (h : validateOp v st arg = (.ok b, st3)) :
    st3 = { st with is_validated := true } := by
  unfold validateOp at h
  repeat' (first | split at h | dsimp only at h)
  all_goals simp only [Prod.mk.injEq] at h
  all_goals first | (exact h.2.symm) | simp_all

theorem parseOp_ok_state (v : VariantSpec) (st : ParserState)
    (r : ParsedResult) (st2 : ParserState) (h : parseOp v st = (.ok r, st2)) :
    st.is_loaded = true ∧ st2.is_loaded = true ∧ st2.is_parsed = true ∧
    st2.is_validated = st.is_validated ∧ r = ⟨st2.metadata, st2.data⟩ := by
  unfold parseOp at h
  by_cases hL : st.is_loaded = true
  · rw [if_neg (by simp [hL])] at h
    cases hr : read_csv (st.raw_data.getD "") with
    | error e => rw [hr] at h; simp at h
    | ok df0 =>
        rw [hr] at h
        dsimp only at h
        simp only [Prod.mk.injEq] at h
        obtain ⟨hr1, hr2⟩ := h
        subst hr2
        refine ⟨hL, by simp [hL], rfl, rfl, ?_⟩
        simp only [Except.ok.injEq] at hr1
        exact hr1.symm
  · rw [if_pos (by simp [hL])] at h
    simp at h


theorem processOp_ok_facts (v : VariantSpec) (st : ParserState) (skip : Bool)
    (res : ParsedResult) (st' : ParserState)
    (h : processOp v st skip = (.ok res, st')) :
    st'.is_loaded = true ∧ st'.is_parsed = true ∧
    res = ⟨st'.metadata, st'.data⟩ ∧
    (skip = false → st'.is_validated = true) := by
  unfold processOp at h
  -- stage 1: the state after the (possibly skipped) load
  by_cases hL : st.is_loaded = true
  case pos =>
    rw [if_neg (by simp [hL])] at h
    dsimp only at h
    -- stage 2 on st itself
    by_cases hP : st.is_parsed = true
    case pos =>
      rw [if_neg (by simp [hP])] at h
      dsimp only at h
      by_cases hC : (¬ skip = true ∧ ¬ st.is_validated = true)
      case pos =>
        rw [if_pos hC] at h
        dsimp only at h
        rcases hv : validateOp v st none with ⟨r3, st3⟩
        rw [hv] at h
        dsimp only at h
        cases r3 with
        | error e => simp [Except.map] at h
        | ok b =>
            simp only [Except.map] at h
            try dsimp only at h
            simp only [Prod.mk.injEq, Except.ok.injEq] at h
            obtain ⟨hres, hst⟩ := h
            have h3 := validateOp_ok_state v st none b st3 hv
            subst hst; subst h3
            exact ⟨hL, hP, hres.symm, fun _ => rfl⟩
      case neg =>
        rw [if_neg hC] at h
        dsimp only at h
        simp only [Prod.mk.injEq, Except.ok.injEq] at h
        obtain ⟨hres, hst⟩ := h
        subst hst
        refine ⟨hL, hP, hres.symm, ?_⟩
        intro hs
        subst hs
        simpa using hC
    case neg =>
      rw [if_pos (by simp [hP])] at h
      rcases hpe : parseOp v st with ⟨r2, st2⟩
      rw [hpe] at h
      dsimp only at h
      cases r2 with
      | error e => simp [Except.map] at h
      | ok r =>
          dsimp only at h
          obtain ⟨-, h2L, h2P, h2V, h2r⟩ := parseOp_ok_state v st r st2 hpe
          by_cases hC : (¬ skip = true ∧ ¬ st2.is_validated = true)
          case pos =>
            rw [if_pos hC] at h
            dsimp only at h
            rcases hv : validateOp v st2 none with ⟨r3, st3⟩
            rw [hv] at h
            dsimp only at h
            cases r3 with
            | error e => simp [Except.map] at h
            | ok b =>
                simp only [Except.map] at h
                try dsimp only at h
                simp only [Prod.mk.injEq, Except.ok.injEq] at h
                obtain ⟨hres, hst⟩ := h
                have h3 := validateOp_ok_state v st2 none b st3 hv
                subst hst; subst h3
                exact ⟨h2L, h2P, by rw [← hres, h2r], fun _ => rfl⟩
          case neg =>
            rw [if_neg hC] at h
            dsimp only at h
            simp only [Prod.mk.injEq, Except.ok.injEq] at h
            obtain ⟨hres, hst⟩ := h
            subst hst
            refine ⟨h2L, h2P, by rw [← hres, h2r], ?_⟩
            intro hs
            subst hs
            simpa [h2V] using hC
  case neg =>
    rw [if_pos (by simp [hL])] at h
    dsimp only at h
    -- after load: st1
    rcases hl1 : loadOp st with ⟨r1, st1⟩
    rw [hl1] at h
    dsimp only at h
    cases r1 with
    | error e => simp [Except.map] at h
    | ok u =>
        dsimp only at h
        have hst1 : st1 = { st with raw_data := some st.src, is_loaded := true } := by
          have := congrArg Prod.snd hl1
          simpa [loadOp] using this.symm
        by_cases hP : st1.is_parsed = true
        case pos =>
          rw [if_neg (by simp [hP])] at h
          dsimp only at h
          by_cases hC : (¬ skip = true ∧ ¬ st1.is_validated = true)
          case pos =>
            rw [if_pos hC] at h
            dsimp only at h
            rcases hv : validateOp v st1 none with ⟨r3, st3⟩
            rw [hv] at h
            dsimp only at h
            cases r3 with
            | error e => simp [Except.map] at h
            | ok b =>
                simp only [Except.map] at h
                try dsimp only at h
                simp only [Prod.mk.injEq, Except.ok.injEq] at h
                obtain ⟨hres, hst⟩ := h
                have h3 := validateOp_ok_state v st1 none b st3 hv
                subst hst; subst h3
                refine ⟨?_, hP, hres.symm, fun _ => rfl⟩
                rw [hst1]
          case neg =>
            rw [if_neg hC] at h
            dsimp only at h
            simp only [Prod.mk.injEq, Except.ok.injEq] at h
            obtain ⟨hres, hst⟩ := h
            subst hst
            refine ⟨by rw [hst1], hP, hres.symm, ?_⟩
            intro hs
            subst hs
            simpa using hC
        case neg =>
          rw [if_pos (by simp [hP])] at h
          rcases hpe : parseOp v st1 with ⟨r2, st2⟩
          rw [hpe] at h
          dsimp only at h
          cases r2 with
          | error e => simp [Except.map] at h
          | ok r =>
              dsimp only at h
              obtain ⟨-, h2L, h2P, h2V, h2r⟩ := parseOp_ok_state v st1 r st2 hpe
              by_cases hC : (¬ skip = true ∧ ¬ st2.is_validated = true)
              case pos =>
                rw [if_pos hC] at h
                dsimp only at h
                rcases hv : validateOp v st2 none with ⟨r3, st3⟩
                rw [hv] at h
                dsimp only at h
                cases r3 with
                | error e => simp [Except.map] at h
                | ok b =>
                    simp only [Except.map] at h
                    try dsimp only at h
                    simp only [Prod.mk.injEq, Except.ok.injEq] at h
                    obtain ⟨hres, hst⟩ := h
                    have h3 := validateOp_ok_state v st2 none b st3 hv
                    subst hst; subst h3
                    exact ⟨h2L, h2P, by rw [← hres, h2r], fun _ => rfl⟩
              case neg =>
                rw [if_neg hC] at h
                dsimp only at h
                simp only [Prod.mk.injEq, Except.ok.injEq] at h
                obtain ⟨hres, hst⟩ := h
                subst hst
                refine ⟨h2L, h2P, by rw [← hres, h2r], ?_⟩
                intro hs
                subst hs
                simpa [h2V] using hC


theorem processOp_state_chain (v : VariantSpec) (st : ParserState) (skip : Bool) :
    ∃ st1 st2, (st1 = st ∨ st1 = (loadOp st).2) ∧
      (st2 = st1 ∨ st2 = (parseOp v st1).2) ∧
      ((processOp v st skip).2 = st2 ∨
       (processOp v st skip).2 = (validateOp v st2 none).2) := by
  unfold processOp
  by_cases hL : st.is_loaded = true
  case pos =>
    rw [if_neg (by simp [hL])]
    dsimp only
    refine ⟨st, ?_⟩
    by_cases hP : st.is_parsed = true
    case pos =>
      rw [if_neg (by simp [hP])]
      dsimp only
      refine ⟨st, Or.inl rfl, Or.inl rfl, ?_⟩
      by_cases hC : (¬ skip = true ∧ ¬ st.is_validated = true)
      · rw [if_pos hC]
        dsimp only
        rcases hv : validateOp v st none with ⟨r3, st3⟩
        cases r3 <;> simp [Except.map, hv]
      · rw [if_neg hC]
        dsimp only
        exact Or.inl rfl
    case neg =>
      rw [if_pos (by simp [hP])]
      rcases hpe : parseOp v st with ⟨r2, st2⟩
      dsimp only
      cases r2 with
      | error e =>
          refine ⟨st2, Or.inl rfl, Or.inr rfl, ?_⟩
          dsimp only
          exact Or.inl rfl
      | ok r =>
          refine ⟨st2, Or.inl rfl, Or.inr rfl, ?_⟩
          dsimp only
          by_cases hC : (¬ skip = true ∧ ¬ st2.is_validated = true)
          · rw [if_pos hC]
            dsimp only
            rcases hv : validateOp v st2 none with ⟨r3, st3⟩
            cases r3 <;> simp [Except.map, hv]
          · rw [if_neg hC]
            dsimp only
            exact Or.inl rfl
  case neg =>
    rw [if_pos (by simp [hL])]
    rcases hl1 : loadOp st with ⟨r1, st1⟩
    dsimp only
    refine ⟨st1, ?_⟩
    cases r1 with
    | error e => exact ⟨st1, Or.inr rfl, Or.inl rfl, Or.inl rfl⟩
    | ok u =>
        dsimp only
        by_cases hP : st1.is_parsed = true
        case pos =>
          rw [if_neg (by simp [hP])]
          dsimp only
          refine ⟨st1, Or.inr rfl, Or.inl rfl, ?_⟩
          by_cases hC : (¬ skip = true ∧ ¬ st1.is_validated = true)
          · rw [if_pos hC]
            dsimp only
            rcases hv : validateOp v st1 none with ⟨r3, st3⟩
            cases r3 <;> simp [Except.map, hv]
          · rw [if_neg hC]
            dsimp only
            exact Or.inl rfl
        case neg =>
          rw [if_pos (by simp [hP])]
          rcases hpe : parseOp v st1 with ⟨r2, st2⟩
          dsimp only
          cases r2 with
          | error e =>
              refine ⟨st2, Or.inr rfl, Or.inr rfl, ?_⟩
              dsimp only
              exact Or.inl rfl
          | ok r =>
              refine ⟨st2, Or.inr rfl, Or.inr rfl, ?_⟩
              dsimp only
              by_cases hC : (¬ skip = true ∧ ¬ st2.is_validated = true)
              · rw [if_pos hC]
                dsimp only
                rcases hv : validateOp v st2 none with ⟨r3, st3⟩
                cases r3 <;> simp [Except.map, hv]
              · rw [if_neg hC]
                dsimp only
                exact Or.inl rfl


theorem monoInv_rfl (a : ParserState) : MonoInv a a := ⟨le_rfl, le_rfl, le_rfl, id⟩

theorem monoInv_trans {a b c : ParserState} (h1 : MonoInv a b) (h2 : MonoInv b c) :
    MonoInv a c :=
  ⟨h1.1.trans h2.1, h1.2.1.trans h2.2.1, h1.2.2.1.trans h2.2.2.1,
   fun h => h2.2.2.2 (h1.2.2.2 h)⟩

theorem monoInv_load (st : ParserState) : MonoInv st (loadOp st).2 := by
  rw [loadOp_state]
  exact ⟨Bool.le_true _, le_rfl, le_rfl, fun _ => Bool.le_true _⟩

theorem monoInv_parse (v : VariantSpec) (st : ParserState) :
    MonoInv st (parseOp v st).2 := by
  rcases parseOp_state v st with h | ⟨hL, h1, h2, h3, -⟩
  · rw [h]; exact monoInv_rfl st
  · refine ⟨?_, ?_, le_of_eq h3.symm, ?_⟩
    · rw [h1]; exact Bool.le_true _
    · rw [h2]; exact Bool.le_true _
    · intro _; rw [h1, h2]

theorem monoInv_validate (v : VariantSpec) (st : ParserState) (arg : Option Table) :
    MonoInv st (validateOp v st arg).2 := by
  rcases validateOp_state v st arg with h | h
  · rw [h]; exact monoInv_rfl st
  · rw [h]; exact ⟨le_rfl, le_rfl, Bool.le_true _, fun hi => hi⟩

theorem monoInv_process (v : VariantSpec) (st : ParserState) (skip : Bool) :
    MonoInv st (processOp v st skip).2 := by
  obtain ⟨st1, st2, h1, h2, h3⟩ := processOp_state_chain v st skip
  have m1 : MonoInv st st1 := by
    rcases h1 with rfl | h1
    · exact monoInv_rfl _
    · rw [h1]; exact monoInv_load st
  have m2 : MonoInv st1 st2 := by
    rcases h2 with rfl | h2
    · exact monoInv_rfl _
    · rw [h2]; exact monoInv_parse v st1
  have m3 : MonoInv st2 (processOp v st skip).2 := by
    rcases h3 with h3 | h3
    · rw [h3]; exact monoInv_rfl st2
    · rw [h3]; exact monoInv_validate v st2 none
  exact monoInv_trans (monoInv_trans m1 m2) m3

theorem monoInv_step (v : VariantSpec) (st : ParserState) (c : ParserCall) :
    MonoInv st (stepCall v st c) := by
  cases c with
  | load => exact monoInv_load st
  | parse => exact monoInv_parse v st
  | validate arg => exact monoInv_validate v st arg
  | process skip => exact monoInv_process v st skip

theorem monoInv_runCalls (v : VariantSpec) (cs : List ParserCall) (st : ParserState) :
    MonoInv st (runCalls v st cs) := by
  induction cs generalizing st with
  | nil => exact monoInv_rfl st
  | cons c rest ih =>
      exact monoInv_trans (monoInv_step v st c) (ih (stepCall v st c))

theorem getD_concat_length (l : List α) (a d : α) : (l ++ [a]).getD l.length d = a := by
  simp [List.getD_eq_getElem?_getD, List.getElem?_concat_length]

theorem checkValueRanges_ok_of_inBounds (df : Table) :
    ∀ (rm : List (String × ℚ × ℚ)),
      (∀ c lo hi, (c, lo, hi) ∈ rm → df.hasCol c = true →
        (∀ w ∈ df.col c, w.isStr = false) ∧
        (∀ q ∈ numCells (df.col c), lo ≤ q ∧ q ≤ hi)) →
      checkValueRanges df rm = .ok () := by
  intro rm
  induction rm with
  | nil => intro _; rfl
  | cons p rest ih =>
      rcases p with ⟨c, lo, hi⟩
      intro hyp
      unfold checkValueRanges
      by_cases hc : df.hasCol c = true
      · rw [if_neg (by simp [hc])]
        obtain ⟨hstr, hbnd⟩ := hyp c lo hi (List.mem_cons_self _ _) hc
        have hany : (df.col c).any (·.isStr) = false := by
          rw [List.any_eq_false]
          intro w hw
          simp [hstr w hw]
        unfold seriesOutOfRange
        rw [if_neg (by simp [hany])]
        have hfilter :
            ((numCells (df.col c)).filter
              (fun x => decide (x < lo) || decide (x > hi))) = [] := by
          rw [List.filter_eq_nil_iff]
          intro q hq
          obtain ⟨h1, h2⟩ := hbnd q hq
          simp [not_lt.mpr h1, not_lt.mpr h2]
        rw [hfilter]
        simp only [List.length_nil, gt_iff_lt, lt_irrefl, if_false]
        exact ih (fun c' lo' hi' hm => hyp c' lo' hi' (List.mem_cons_of_mem _ hm))
      · rw [if_pos (by simp [hc])]
        exact ih (fun c' lo' hi' hm => hyp c' lo' hi' (List.mem_cons_of_mem _ hm))


theorem checkValueRanges_violation (df : Table) :
    ∀ (rm : List (String × ℚ × ℚ)),
      (∀ c lo hi, (c, lo, hi) ∈ rm → df.hasCol c = true →
        ∀ w ∈ df.col c, w.isStr = false) →
      (∃ c lo hi, (c, lo, hi) ∈ rm ∧ df.hasCol c = true ∧ 0 < oorCount df c lo hi) →
      ∃ c lo hi, (c, lo, hi) ∈ rm ∧ df.hasCol c = true ∧ 0 < oorCount df c lo hi ∧
        checkValueRanges df rm
          = .error (.validationError (.outOfRange c (oorCount df c lo hi) lo hi)) := by
  intro rm
  induction rm with
  | nil =>
      rintro _ ⟨c, lo, hi, hm, -⟩
      exact absurd hm (List.not_mem_nil _)
  | cons p rest ih =>
      rcases p with ⟨c0, lo0, hi0⟩
      intro hstr hbad
      unfold checkValueRanges
      by_cases hc : df.hasCol c0 = true
      · rw [if_neg (by simp [hc])]
        have hany : (df.col c0).any (·.isStr) = false := by
          rw [List.any_eq_false]
          intro w hw
          simp [hstr c0 lo0 hi0 (List.mem_cons_self _ _) hc w hw]
        unfold seriesOutOfRange
        rw [if_neg (by simp [hany])]
        dsimp only
        rw [show (List.filter (fun x => decide (x < lo0) || decide (x > hi0))
            (numCells (df.col c0))).length = oorCount df c0 lo0 hi0 from rfl]
        by_cases hn : 0 < oorCount df c0 lo0 hi0
        · rw [if_pos hn]
          exact ⟨c0, lo0, hi0, List.mem_cons_self _ _, hc, hn, rfl⟩
        · rw [if_neg hn]
          have hbad' : ∃ c lo hi, (c, lo, hi) ∈ rest ∧ df.hasCol c = true ∧
              0 < oorCount df c lo hi := by
            obtain ⟨c, lo, hi, hm, hcc, hcnt⟩ := hbad
            rcases List.mem_cons.mp hm with he | hm'
            · obtain ⟨rfl, rfl, rfl⟩ := Prod.mk.injEq .. ▸ he
              · exact absurd hcnt hn
            · exact ⟨c, lo, hi, hm', hcc, hcnt⟩
          obtain ⟨c, lo, hi, hm, hcc, hcnt, hres⟩ :=
            ih (fun c' lo' hi' hm' => hstr c' lo' hi' (List.mem_cons_of_mem _ hm')) hbad'
          exact ⟨c, lo, hi, List.mem_cons_of_mem _ hm, hcc, hcnt, hres⟩
      · rw [if_pos (by simp [hc])]
        have hbad' : ∃ c lo hi, (c, lo, hi) ∈ rest ∧ df.hasCol c = true ∧
            0 < oorCount df c lo hi := by
          obtain ⟨c, lo, hi, hm, hcc, hcnt⟩ := hbad
          rcases List.mem_cons.mp hm with he | hm'
          · obtain ⟨rfl, rfl, rfl⟩ := Prod.mk.injEq .. ▸ he
            · exact absurd hcc hc
          · exact ⟨c, lo, hi, hm', hcc, hcnt⟩
        obtain ⟨c, lo, hi, hm, hcc, hcnt, hres⟩ :=
          ih (fun c' lo' hi' hm' => hstr c' lo' hi' (List.mem_cons_of_mem _ hm')) hbad'
        exact ⟨c, lo, hi, List.mem_cons_of_mem _ hm, hcc, hcnt, hres⟩


theorem validateOp_range_error (v : VariantSpec) (st : ParserState) (df : Table) (e : PyExc)
    (hreq : checkRequiredColumns df v.required = .ok ())
    (hrng : checkValueRanges df v.rangeMap = .error e) :
    validateOp v st (some df) = (.error e, st) := by
  unfold validateOp
  dsimp only
  rw [hreq]
  dsimp only
  rw [hrng]

theorem checkValueRanges_skip_absent (df : Table) (c : String) (lo hi : ℚ)
    (rest : List (String × ℚ × ℚ)) (hc : df.hasCol c = false) :
    checkValueRanges df ((c, lo, hi) :: rest) = checkValueRanges df rest := by
  rw [checkValueRanges]
  rw [if_pos (by simp [hc])]

/-! ## The claims -/

/-- **C1** (code bug): on a table whose duplicate-row percentage is exactly
5 — `dupTable20`, 20 rows with one full duplicate — `_check_duplicates`
itself reports a warning (`has_warnings = true`, `has_issues = false`, with
the duplicate message), but `QCChecker.check` drops it: the duplicate
message ends up in neither the `warnings` nor the `issues` list, because
the `check` aggregation consults only `has_issues` for the duplicates
sub-check (it has no `elif ... has_warnings` branch, unlike the
missing-values sub-check).  The spec's claim that `0 < dup_pct ≤ 5` yields
a warning matches the sub-check's own contract; `check` loses it. -/
theorem C1_duplicate_warning_dropped :
    (QCChecker.checkDuplicates dupTable20).has_warnings = true ∧
    (QCChecker.checkDuplicates dupTable20).has_issues = false ∧
    (QCChecker.checkDuplicates dupTable20).message = QCMsg.duplicates 1 5 ∧
    QCMsg.duplicates 1 5 ∉ (QCChecker.check dupTable20).warnings ∧
    QCMsg.duplicates 1 5 ∉ (QCChecker.check dupTable20).issues := by
  with_unfolding_all decide

/-- **C2** (counterexample): on a freshly constructed electrical parser,
`validate` called with an explicitly passed valid table succeeds and sets
`is_validated` while `is_parsed` is still false — the claimed invariant
`is_validated → is_parsed` fails. -/
theorem C2_counterexample :
    (validateOp elecSpec elecSt0 (some goodElecTable)).1 = .ok true ∧
    (validateOp elecSpec elecSt0 (some goodElecTable)).2.is_validated = true ∧
    (validateOp elecSpec elecSt0 (some goodElecTable)).2.is_parsed = false := by
  with_unfolding_all decide

/-- **C2 (amended)**: for every variant and state satisfying
`is_parsed → is_loaded`, every call is monotone on all three lifecycle
flags (no flag is ever un-set) and preserves `is_parsed → is_loaded`; in
particular along every call sequence from a freshly constructed parser
`is_parsed → is_loaded` holds in every reachable state.  (The stronger
`is_validated → is_parsed` part of the original claim fails, per the
counterexample: validate with an explicit table sets `is_validated`
without `is_parsed`.) -/
theorem C2_lifecycle_monotone_amended (v : VariantSpec) (st : ParserState)
    (c : ParserCall) (hInv : st.is_parsed ≤ st.is_loaded) :
    st.is_loaded ≤ (stepCall v st c).is_loaded ∧
    st.is_parsed ≤ (stepCall v st c).is_parsed ∧
    st.is_validated ≤ (stepCall v st c).is_validated ∧
    (stepCall v st c).is_parsed ≤ (stepCall v st c).is_loaded ∧
    ∀ (path content createdAt : String) (cs : List ParserCall),
      (runCalls v (parserInitState path content createdAt) cs).is_parsed ≤
        (runCalls v (parserInitState path content createdAt) cs).is_loaded := by
  obtain ⟨m1, m2, m3, m4⟩ := monoInv_step v st c
  refine ⟨m1, m2, m3, m4 hInv, ?_⟩
  intro path content createdAt cs
  exact (monoInv_runCalls v cs (parserInitState path content createdAt)).2.2.2 le_rfl

theorem C2_lifecycle_monotone_amended_witness :
    (parserInitState "p" "c" "t").is_loaded ≤
      (stepCall elecSpec (parserInitState "p" "c" "t") .load).is_loaded :=
  (C2_lifecycle_monotone_amended elecSpec (parserInitState "p" "c" "t") .load le_rfl).1

/-- **C3** (counterexample): constructing a parser on a non-existent path
raises the builtin `FileNotFoundError`, which is not in the `ParserError`
family (the claim says both the missing-path and the empty-file cases
raise a `ParserError`-family error). -/
theorem C3_counterexample :
    parserInit "missing.csv" "" "t0" .missing
      = .error (.fileNotFoundError "missing.csv") ∧
    (PyExc.fileNotFoundError "missing.csv").isParserFamily = false :=
  ⟨rfl, rfl⟩

/-- **C3 (amended)**: construction on a non-existent path or an empty file
raises immediately in both cases, but the errors differ: a missing path
raises the builtin `FileNotFoundError` (outside the `ParserError` family),
while an empty file raises `ParserError`. -/
theorem C3_construction_errors_amended (path content createdAt : String) :
    parserInit path content createdAt .missing
      = .error (.fileNotFoundError path) ∧
    parserInit path content createdAt (.file 0)
      = .error (.parserError ("File is empty: " ++ path)) ∧
    (PyExc.fileNotFoundError path).isParserFamily = false ∧
    (PyExc.parserError ("File is empty: " ++ path)).isParserFamily = true :=
  ⟨rfl, rfl, rfl, rfl⟩

/-- **C5**: for every table, the QC result's `passed` is true iff its
`issues` list is empty — warnings are aggregated separately and play no
part in `passed`. -/
theorem C5_passed_iff_no_issues (df : Table) :
    (QCChecker.check df).passed = true ↔ (QCChecker.check df).issues = [] := by
  simp only [QCChecker.check]
  simp [List.length_eq_zero]

/-- **C7**: for each of the three variants, `validate()` on a freshly
constructed parser (no table parsed, none passed) raises
`ValidationError("No data to validate...")` — a validation-kind error,
which is also inside the `ParserError` family but distinct from the
structural/format kinds. -/
theorem C7_validate_before_parse (path content createdAt : String) :
    (validateOp elecSpec (parserInitState path content createdAt) none).1
      = .error (.validationError .noData) ∧
    (validateOp seismicSpec (parserInitState path content createdAt) none).1
      = .error (.validationError .noData) ∧
    (validateOp radarSpec (parserInitState path content createdAt) none).1
      = .error (.validationError .noData) ∧
    (PyExc.validationError .noData).isValidationError = true :=
  ⟨rfl, rfl, rfl, rfl⟩

/-- **C4** (counterexample): when the metadata sidecar holds a value
`json.dump` rejects (an object of an arbitrary class), `write_output`
raises the underlying `TypeError` itself — not a `ParserError`-family
error wrapping it, since the method has no `try`/`except`. -/
theorem C4_write_output_counterexample :
    Standardizer.writeOutput (.ok ()) (.ok ()) (.ok ())
        [("creator", PyObj.objref "datetime object")] true
      = .error (.typeError jsonDumpTypeErrorMsg) ∧
    (PyExc.typeError jsonDumpTypeErrorMsg).isParserFamily = false := by
  constructor
  · simp [Standardizer.writeOutput, convertNumpyTypes, jsonSafe, List.attach,
      List.pmap]
  · rfl

/-- **C4 (amended)**: whenever `Standardizer.write_output` fails, the
error it raises is exactly the underlying failure, propagated unchanged —
the mkdir error, the pandas writer's error, the sidecar-open error, or the
`TypeError` `json.dump` raises on non-JSON-safe metadata.  No wrapping in
a `ParserError`-family error takes place (unlike `BaseParser.save_data`,
which does wrap). -/
theorem C4_write_output_unwrapped_amended (mk dw mo : Except PyExc Unit)
    (metadata : List (String × PyObj)) (im : Bool) (e : PyExc)
    (h : Standardizer.writeOutput mk dw mo metadata im = .error e) :
    mk = .error e ∨ dw = .error e ∨ mo = .error e ∨
      e = .typeError jsonDumpTypeErrorMsg := by
  unfold Standardizer.writeOutput at h
  cases mk with
  | error e1 =>
      dsimp only at h
      injection h with h1
      exact Or.inl (by rw [h1])
  | ok u =>
      cases dw with
      | error e2 => exact Or.inr (Or.inl (by dsimp only at h; injection h with h2; rw [h2]))
      | ok u2 =>
          dsimp only at h
          split at h
          · cases mo with
            | error e3 =>
                dsimp only at h
                injection h with h3
                exact Or.inr (Or.inr (Or.inl (by rw [h3])))
            | ok u3 =>
                dsimp only at h
                split at h
                · simp at h
                · injection h with h4
                  exact Or.inr (Or.inr (Or.inr h4.symm))
          · simp at h

theorem C4_write_output_unwrapped_witness :
    (Except.ok () : Except PyExc Unit) = .error (.osError "disk full") ∨
    (Except.error (.osError "disk full") : Except PyExc Unit)
      = .error (.osError "disk full") ∨
    (Except.ok () : Except PyExc Unit) = .error (.osError "disk full") ∨
    (PyExc.osError "disk full") = .typeError jsonDumpTypeErrorMsg :=
  C4_write_output_unwrapped_amended (.ok ()) (.error (.osError "disk full"))
    (.ok ()) [] true (.osError "disk full") rfl

/-- **C6**: the value-range check has inclusive bounds and is skipped for
absent columns, and an out-of-range value fails `validate` naming the
column and count.  In order: (1) if every range-checked column present in
the table is numeric and all its values lie in `[lo, hi]` — bound values
included — the check passes; (2) an entry whose column the table lacks is
skipped entirely; (3) if some present range-checked column (all checked
present columns being numeric) has a value strictly below its min or
strictly above its max, the check fails with `ValidationError` naming a
violating column and its exact out-of-range count; (4) a range-check
failure makes `validate` with that table fail with the same error. -/
theorem C6_range_check_inclusive :
    (∀ (df : Table) (rm : List (String × ℚ × ℚ)),
      (∀ p ∈ rm, df.hasCol p.1 = true →
        (∀ w ∈ df.col p.1, w.isStr = false) ∧
        (∀ q ∈ numCells (df.col p.1), p.2.1 ≤ q ∧ q ≤ p.2.2)) →
      checkValueRanges df rm = .ok ()) ∧
    (∀ (df : Table) (c : String) (lo hi : ℚ) (rest : List (String × ℚ × ℚ)),
      df.hasCol c = false →
      checkValueRanges df ((c, lo, hi) :: rest) = checkValueRanges df rest) ∧
    (∀ (df : Table) (rm : List (String × ℚ × ℚ)),
      (∀ p ∈ rm, df.hasCol p.1 = true → ∀ w ∈ df.col p.1, w.isStr = false) →
      (∃ p ∈ rm, df.hasCol p.1 = true ∧ 0 < oorCount df p.1 p.2.1 p.2.2) →
      ∃ p ∈ rm, df.hasCol p.1 = true ∧ 0 < oorCount df p.1 p.2.1 p.2.2 ∧
        checkValueRanges df rm
          = .error (.validationError
              (.outOfRange p.1 (oorCount df p.1 p.2.1 p.2.2) p.2.1 p.2.2))) ∧
    (∀ (v : VariantSpec) (st : ParserState) (df : Table) (e : PyExc),
      checkRequiredColumns df v.required = .ok () →
      checkValueRanges df v.rangeMap = .error e →
      validateOp v st (some df) = (.error e, st)) := by
  refine ⟨?_, ?_, ?_, ?_⟩
  · exact fun df rm h =>
      checkValueRanges_ok_of_inBounds df rm (fun c lo hi hm hc => h (c, lo, hi) hm hc)
  · exact checkValueRanges_skip_absent
  · intro df rm hstr hbad
    obtain ⟨c, lo, hi, hm, hc, hcnt, hres⟩ := checkValueRanges_violation df rm
      (fun c lo hi hm hc => hstr (c, lo, hi) hm hc)
      (by
        obtain ⟨p, hm, hc, hcnt⟩ := hbad
        exact ⟨p.1, p.2.1, p.2.2, by simpa using hm, hc, hcnt⟩)
    exact ⟨(c, lo, hi), hm, hc, hcnt, hres⟩
  · exact validateOp_range_error

theorem C6_range_check_witness :
    checkValueRanges boundaryElecTable elecSpec.rangeMap = .ok () :=
  C6_range_check_inclusive.1 boundaryElecTable elecSpec.rangeMap
    (by with_unfolding_all decide)

/-- **C8**: if `process(skip_validation)` succeeds on a parser instance,
running it again with the same argument succeeds, returns the same
result, and returns the parser in exactly the same state (each
already-satisfied transition is a no-op, so nothing changes). -/
theorem C8_process_idempotent (v : VariantSpec) (st : ParserState) (skip : Bool)
    (res : ParsedResult) (st' : ParserState)
    (h : processOp v st skip = (.ok res, st')) :
    processOp v st' skip = (.ok res, st') := by
  obtain ⟨hL, hP, hres, hV⟩ := processOp_ok_facts v st skip res st' h
  unfold processOp
  rw [if_neg (by simp [hL])]
  dsimp only
  rw [if_neg (by simp [hP])]
  dsimp only
  have hCfalse : ¬ (¬ skip = true ∧ ¬ st'.is_validated = true) := by
    by_cases hs : skip = true
    · simp [hs]
    · have := hV (by simpa using hs)
      simp [this]
  rw [if_neg hCfalse]
  dsimp only
  rw [hres]

set_option maxRecDepth 4000 in
theorem C8_process_idempotent_witness :
    processOp elecSpec elecStDone false
      = (.ok ⟨elecParsedMeta, some elecParsedTable⟩, elecStDone) := by
  have h : processOp elecSpec elecSt0 false
      = (.ok ⟨elecParsedMeta, some elecParsedTable⟩, elecStDone) := by
    with_unfolding_all decide
  exact C8_process_idempotent elecSpec elecSt0 false _ _ h

/-- **C9**: over the object store, `standardize` leaves the caller's table
and metadata objects untouched and returns fresh objects: after the call
the store entries at the input indices are unchanged, the returned indices
differ from the input ones, and the returned objects hold exactly the
value-level `standardize` result (the private copies are taken before any
in-place modification). -/
theorem C9_standardize_no_mutation (h : Heap) (ti mi : Nat) (tag now : String)
    (hti : ti < h.tables.length) (hmi : mi < h.metas.length) :
    ((standardizeOnHeap h ti mi tag now).1.tables[ti]? = h.tables[ti]?) ∧
    ((standardizeOnHeap h ti mi tag now).1.metas[mi]? = h.metas[mi]?) ∧
    (standardizeOnHeap h ti mi tag now).2.1 ≠ ti ∧
    (standardizeOnHeap h ti mi tag now).2.2 ≠ mi ∧
    ((standardizeOnHeap h ti mi tag now).1.tables[(standardizeOnHeap h ti mi tag now).2.1]?
      = some ((Standardizer.standardize
          ⟨h.metas.getD mi [], h.tables.getD ti ⟨[], []⟩⟩ tag now).data)) ∧
    ((standardizeOnHeap h ti mi tag now).1.metas[(standardizeOnHeap h ti mi tag now).2.2]?
      = some ((Standardizer.standardize
          ⟨h.metas.getD mi [], h.tables.getD ti ⟨[], []⟩⟩ tag now).metadata)) := by
  unfold standardizeOnHeap Standardizer.standardize
  dsimp only
  simp only [getD_concat_length]
  refine ⟨?_, ?_, ?_, ?_, ?_, ?_⟩
  · rw [List.getElem?_set_ne (by simp; omega)]
    rw [List.getElem?_append_left (by simp; omega)]
    rw [List.getElem?_append_left hti]
  · rw [List.getElem?_set_ne (by omega)]
    rw [List.getElem?_append_left hmi]
  · simp only [List.length_append, List.length_singleton]
    omega
  · omega
  · rw [List.getElem?_set_eq_of_lt]
    simp
  · rw [List.getElem?_set_eq_of_lt]
    simp

theorem C9_standardize_no_mutation_witness :
    (standardizeOnHeap witnessHeap 0 0 "gravity" "t").1.tables[0]?
      = witnessHeap.tables[0]? :=
  (C9_standardize_no_mutation witnessHeap 0 0 "gravity" "t"
    (by decide) (by decide)).1

/-- **C10** (implicit): `standardize` is total in the tag: any tag outside
{electrical, seismic, radar} falls through the `if`/`elif` chain with no
`else`, so only the common normalization is applied to the table (no
variant-specific coercion), and the metadata still gets `standardized_at`,
`standardization_version` and `data_type` — the latter overwritten with
the unrecognized tag itself. -/
theorem C10_unknown_tag_standardize (parsed : DataDict) (tag now : String)
    (h1 : tag ≠ "electrical") (h2 : tag ≠ "seismic") (h3 : tag ≠ "radar") :
    Standardizer.standardize parsed tag now
      = { metadata := mset (mset (mset parsed.metadata
            "standardized_at" (.mstr now))
            "standardization_version" (.mstr "1.0"))
            "data_type" (.mstr tag)
          data := applyCommonStandards parsed.data } ∧
    mget (Standardizer.standardize parsed tag now).metadata "data_type"
      = some (.mstr tag) := by
  have e1 : (tag == "electrical") = false := by simpa using h1
  have e2 : (tag == "seismic") = false := by simpa using h2
  have e3 : (tag == "radar") = false := by simpa using h3
  have hmain : Standardizer.standardize parsed tag now
      = { metadata := mset (mset (mset parsed.metadata
            "standardized_at" (.mstr now))
            "standardization_version" (.mstr "1.0"))
            "data_type" (.mstr tag)
          data := applyCommonStandards parsed.data } := by
    unfold Standardizer.standardize
    simp only [e1, e2, e3, Bool.false_eq_true, if_false]
  refine ⟨hmain, ?_⟩
  rw [hmain]
  exact mget_mset _ _ _

theorem C10_unknown_tag_witness :
    mget (Standardizer.standardize gravityDict "gravity" "t").metadata "data_type"
      = some (.mstr "gravity") :=
  (C10_unknown_tag_standardize gravityDict "gravity" "t"
    (by decide) (by decide) (by decide)).2

end GeoData
